import Mathlib

/-! The ping_pong mesh responder (`nRF51/examples/ping_pong/main.c`)

A shallow embedding of the two callbacks of the example, `cmd_rx` and
`rbc_mesh_event_handler`, over an explicit state (the file-scope variables
`m_handle` and `m_data`) and an explicit trace of the calls they make into the
mesh framework, the LED driver and the log.

Machine integers are natural numbers; every store into a `uint8_t` object is
written with an explicit `% 256`.
-/

namespace PingPong

/-! ## Constants and types -/

/-- `#define MESH_HANDLE_COUNT (20)` -/
def MESH_HANDLE_COUNT : Nat := 20

/-- `#define INVALID_HANDLE (0xFF)` -/
def INVALID_HANDLE : Nat := 0xFF

/-- The enumeration `rbc_mesh_event_type_t`; the five enumerators are the ones
the `switch` of `rbc_mesh_event_handler` names. -/
inductive rbc_mesh_event_type_t where
  | RBC_MESH_EVENT_TYPE_CONFLICTING_VAL
  | RBC_MESH_EVENT_TYPE_UPDATE_VAL
  | RBC_MESH_EVENT_TYPE_NEW_VAL
  | RBC_MESH_EVENT_TYPE_INITIALIZED
  | RBC_MESH_EVENT_TYPE_TX
  deriving DecidableEq, Repr

open rbc_mesh_event_type_t

/-- What `main.c` takes from headers that are not part of the sources
(`rbc_mesh.h`, `boards.h`): the length of a value, the pin of the first LED and
the integer value of each enumerator of `rbc_mesh_event_type_t`.  They are
parameters of the embedding. -/
structure Headers where
  MAX_VALUE_LENGTH : Nat
  LED_START : Nat
  event_type_value : rbc_mesh_event_type_t → Nat

/-- The fields of `rbc_mesh_event_t` that the handler reads. -/
structure rbc_mesh_event_t where
  event_type : rbc_mesh_event_type_t
  value_handle : Nat
  deriving DecidableEq, Repr

/-- The file-scope variables: `static uint8_t m_handle` and
`static uint8_t m_data[MAX_VALUE_LENGTH]`. -/
structure State where
  m_handle : Nat
  m_data : List Nat
  deriving DecidableEq, Repr

/-- The calls the two callbacks make, in program order.  `LOG fmt args` is
`_LOG(fmt, args...)`; a `%c` argument is recorded by its character code. -/
inductive Effect where
  | rbc_mesh_value_set (handle : Nat) (data : List Nat) (len : Nat)
  | rbc_mesh_value_disable (handle : Nat)
  | nrf_gpio_pin_toggle (pin : Nat)
  | LOG (fmt : String) (args : List Nat)
  deriving DecidableEq, Repr

/-- The state `main.c` starts from before `main` copies the address in:
`m_handle = INVALID_HANDLE`, `m_data` zero-initialised. -/
def State.init (H : Headers) : State :=
  { m_handle := INVALID_HANDLE, m_data := List.replicate H.MAX_VALUE_LENGTH 0 }

/-! ## The C library's `atoi` -/

/-- `isspace` in the C locale: space, `\t`, `\n`, `\v`, `\f`, `\r`. -/
def isspace (c : Nat) : Bool := c == 32 || (9 ≤ c && c ≤ 13)

/-- `isdigit`: `'0'..'9'`. -/
def isdigit (c : Nat) : Bool := 48 ≤ c && c ≤ 57

/-- Skips the leading white space of a string. -/
def skipSpace : List Nat → List Nat
  | [] => []
  | c :: cs => if isspace c then skipSpace cs else c :: cs

/-- Accumulates the decimal digits at the head of a string; stops at the first
byte that is not a digit (the terminating NUL included) or at the end. -/
def digitsValue (acc : Nat) : List Nat → Nat
  | [] => acc
  | c :: cs => if isdigit c then digitsValue (acc * 10 + (c - 48)) cs else acc

/-- Drops one sign character, `-` (45) or `+` (43), at the head of a string. -/
def skipSign : List Nat → List Nat
  | [] => []
  | c :: cs => if c = 45 ∨ c = 43 then cs else c :: cs

/-- `atoi` of the C library, i.e. `(int) strtol(s, NULL, 10)`: white space is
skipped, one optional sign is read, then the decimal digits.  The string is the
list of bytes from the pointer on; the end of the list stands for the
terminating NUL.  The value is the mathematical integer (C leaves the result
undefined when it does not fit an `int`). -/
def atoi (s : List Nat) : Int :=
  let t := skipSpace s
  let v : Int := digitsValue 0 (skipSign t)
  if t.head? = some 45 then - v else v

/-- Conversion of an `int` to `uint8_t`: reduction modulo 256. -/
def to_uint8 (n : Int) : Nat := (n % 256).toNat

/-- The bytes of a text, for writing commands down. -/
def bytes (s : String) : List Nat := s.toList.map Char.toNat

/-! ## The callbacks -/

/-- `m_data[6]++` on a `uint8_t` array. -/
def incr_data6 (m_data : List Nat) : List Nat :=
  m_data.set 6 ((m_data.getD 6 0 + 1) % 256)

/-- `print_usage`. -/
def print_usage : List Effect :=
  [Effect.LOG ("To configure: transmit the handle number this device responds to, \r\n"
      ++ "or 0 to respond to all handles. MAX: %d\r\n") [MESH_HANDLE_COUNT]]

/-- `cmd_rx(cmd, len)`: the new state and the calls made. -/
def cmd_rx (H : Headers) (s : State) (cmd : List Nat) (len : Nat) : State × List Effect :=
  if len ≤ 1 then
    (s, [])
  else
    let s1 : State := { s with m_handle := to_uint8 (atoi cmd) }
    if s1.m_handle > MESH_HANDLE_COUNT then
      (s1, Effect.LOG "OUT OF BOUNDS!\r\n" [] :: print_usage)
    else if s1.m_handle = 0 then
      let s2 : State := { s1 with m_data := incr_data6 s1.m_data }
      (s2, (List.range MESH_HANDLE_COUNT).map
              (fun i => Effect.rbc_mesh_value_set (i + 1) s2.m_data H.MAX_VALUE_LENGTH)
            ++ [Effect.LOG "Responding to all\r\n" []])
    else
      let s2 : State := { s1 with m_data := incr_data6 s1.m_data }
      (s2, [Effect.rbc_mesh_value_set s2.m_handle s2.m_data H.MAX_VALUE_LENGTH,
            Effect.LOG "Responding to handle %d\r\n" [s2.m_handle]])

/-- `static const char cmd[] = {'U', 'C', 'N', 'I', 'T'}` of the handler. -/
def rbc_mesh_event_handler.cmd : List Char := ['U', 'C', 'N', 'I', 'T']

/-- `rbc_mesh_event_handler(evt)`: the new state and the calls made. -/
def rbc_mesh_event_handler (H : Headers) (s : State) (evt : rbc_mesh_event_t) :
    State × List Effect :=
  match evt.event_type with
  | RBC_MESH_EVENT_TYPE_CONFLICTING_VAL
  | RBC_MESH_EVENT_TYPE_UPDATE_VAL
  | RBC_MESH_EVENT_TYPE_NEW_VAL =>
    if evt.value_handle = s.m_handle ∨ s.m_handle = 0 then
      let s1 : State := { s with m_data := incr_data6 s.m_data }
      (s1, [Effect.nrf_gpio_pin_toggle H.LED_START,
            Effect.rbc_mesh_value_set evt.value_handle s1.m_data H.MAX_VALUE_LENGTH]
            ++ (if s1.m_handle = 0 then
                  [Effect.LOG "%c[%d] \r\n"
                    [(rbc_mesh_event_handler.cmd.getD (H.event_type_value evt.event_type)
                        (Char.ofNat 0)).toNat,
                     evt.value_handle]]
                else []))
    else
      (s, [Effect.rbc_mesh_value_disable evt.value_handle])
  | RBC_MESH_EVENT_TYPE_INITIALIZED => (s, [])
  | RBC_MESH_EVENT_TYPE_TX => (s, [])

/-! ## Sequences of reactions -/

/-- One delivery to the node: a mesh event or a command `(cmd, len)`. -/
inductive Input where
  | event (evt : rbc_mesh_event_t)
  | command (cmd : List Nat) (len : Nat)
  deriving DecidableEq, Repr

/-- The reaction to one delivery. -/
def react (H : Headers) (s : State) : Input → State × List Effect
  | Input.event evt => rbc_mesh_event_handler H s evt
  | Input.command cmd len => cmd_rx H s cmd len

/-- The deliveries of a list, in order; the traces are concatenated. -/
def run (H : Headers) (s : State) : List Input → State × List Effect
  | [] => (s, [])
  | i :: is =>
    let r := react H s i
    let r2 := run H r.1 is
    (r2.1, r.2 ++ r2.2)

/-! ## Observations on a trace -/

/-- The calls into the value store (`rbc_mesh_value_set`, `rbc_mesh_value_disable`). -/
def Effect.isStoreCall : Effect → Bool
  | Effect.rbc_mesh_value_set _ _ _ => true
  | Effect.rbc_mesh_value_disable _ => true
  | _ => false

def Effect.isSet : Effect → Bool
  | Effect.rbc_mesh_value_set _ _ _ => true
  | _ => false

def Effect.isDisable : Effect → Bool
  | Effect.rbc_mesh_value_disable _ => true
  | _ => false

def Effect.isLog : Effect → Bool
  | Effect.LOG _ _ => true
  | _ => false

/-- The value-store calls of a trace, in order. -/
def storeCalls (tr : List Effect) : List Effect := tr.filter Effect.isStoreCall

/-- The log lines of a trace, in order. -/
def logLines (tr : List Effect) : List Effect := tr.filter Effect.isLog

/-- A test board: 28-byte values, LED on pin 18, enumerators numbered in the
order the tag table spells (`U`, `C`, `N`, `I`, `T`). -/
def H0 : Headers :=
  { MAX_VALUE_LENGTH := 28
    LED_START := 18
    event_type_value := fun t =>
      match t with
      | RBC_MESH_EVENT_TYPE_UPDATE_VAL => 0
      | RBC_MESH_EVENT_TYPE_CONFLICTING_VAL => 1
      | RBC_MESH_EVENT_TYPE_NEW_VAL => 2
      | RBC_MESH_EVENT_TYPE_INITIALIZED => 3
      | RBC_MESH_EVENT_TYPE_TX => 4 }

/-- A test state: filter 3, identifier `1..6`, counter 255. -/
def s0 : State := { m_handle := 3, m_data := [1, 2, 3, 4, 5, 6, 255, 0] }

/-- The counter byte `m_data[6]`. -/
def counter (m_data : List Nat) : Nat := m_data.getD 6 0

/-- The event types whose case of the `switch` has a body. -/
def isValueEvent : rbc_mesh_event_type_t → Bool
  | RBC_MESH_EVENT_TYPE_CONFLICTING_VAL => true
  | RBC_MESH_EVENT_TYPE_UPDATE_VAL => true
  | RBC_MESH_EVENT_TYPE_NEW_VAL => true
  | _ => false

/-- A reaction republishes when its trace has a `rbc_mesh_value_set` call. -/
def republishes (H : Headers) (s : State) (i : Input) : Bool :=
  (react H s i).2.any Effect.isSet

/-- The number of republishing reactions along a run. -/
def countRepublish (H : Headers) (s : State) : List Input → Nat
  | [] => 0
  | i :: is => (if republishes H s i then 1 else 0) + countRepublish H (react H s i).1 is

/-! ## The command text as the specification words it -/

/-- Specification wording, "the leading ASCII decimal digits of the command". -/
def leadingDigits (cmd : List Nat) : List Nat := cmd.takeWhile isdigit

/-- Specification wording, "parse the leading numeric text as an unsigned
integer": the candidate handle, `none` when the command starts with no digit. -/
def leadingValue (cmd : List Nat) : Option Nat :=
  match leadingDigits cmd with
  | [] => none
  | ds => some (ds.foldl (fun acc d => acc * 10 + (d - 48)) 0)

/-- Whether a string begins with a decimal digit. -/
def startsWithDigit : List Nat → Bool
  | [] => false
  | b :: _ => isdigit b

/-- A sample run: wildcard command, two events, a rejected command, a lifecycle
event, a single-handle command and two more events. -/
def inputs0 : List Input :=
  [Input.command (bytes "0\n") 2,
   Input.event ⟨RBC_MESH_EVENT_TYPE_NEW_VAL, 7⟩,
   Input.event ⟨RBC_MESH_EVENT_TYPE_CONFLICTING_VAL, 20⟩,
   Input.command (bytes "21") 2,
   Input.event ⟨RBC_MESH_EVENT_TYPE_TX, 7⟩,
   Input.command (bytes "4\n") 2,
   Input.event ⟨RBC_MESH_EVENT_TYPE_UPDATE_VAL, 4⟩,
   Input.event ⟨RBC_MESH_EVENT_TYPE_UPDATE_VAL, 5⟩]

/-- The tag the handler prints for an event type: `cmd[evt->event_type]`. -/
def eventTag (H : Headers) (t : rbc_mesh_event_type_t) : Char :=
  rbc_mesh_event_handler.cmd.getD (H.event_type_value t) (Char.ofNat 0)

/-- A handle of the mesh: `1..MESH_HANDLE_COUNT`. -/
def handleInRange (h : Nat) : Bool := 1 ≤ h && h ≤ MESH_HANDLE_COUNT

/-- The handle argument of a value-store call is a handle of the mesh. -/
def Effect.handleOk : Effect → Bool
  | Effect.rbc_mesh_value_set h _ _ => handleInRange h
  | Effect.rbc_mesh_value_disable h => handleInRange h
  | _ => true

/-- A delivery whose event, if it is one, names a handle of the mesh; a command
may carry any bytes. -/
def Input.handleOk : Input → Bool
  | Input.event evt => handleInRange evt.value_handle
  | Input.command _ _ => true

/-- A test state in wildcard mode. -/
def sW : State := { m_handle := 0, m_data := [1, 2, 3, 4, 5, 6, 41, 0] }

/-- A sample run with out-of-range commands between events on mesh handles. -/
def inputs1 : List Input :=
  [Input.event ⟨RBC_MESH_EVENT_TYPE_NEW_VAL, 2⟩,
   Input.command (bytes "0\n") 2,
   Input.event ⟨RBC_MESH_EVENT_TYPE_UPDATE_VAL, 20⟩,
   Input.command (bytes "255") 3,
   Input.event ⟨RBC_MESH_EVENT_TYPE_CONFLICTING_VAL, 1⟩,
   Input.command (bytes "-1") 2,
   Input.command (bytes "19") 2,
   Input.event ⟨RBC_MESH_EVENT_TYPE_NEW_VAL, 19⟩]

/-- A sample sequence of events on handles of the mesh. -/
def events0 : List rbc_mesh_event_t :=
  [⟨RBC_MESH_EVENT_TYPE_NEW_VAL, 1⟩, ⟨RBC_MESH_EVENT_TYPE_INITIALIZED, 2⟩,
   ⟨RBC_MESH_EVENT_TYPE_UPDATE_VAL, 20⟩, ⟨RBC_MESH_EVENT_TYPE_TX, 20⟩,
   ⟨RBC_MESH_EVENT_TYPE_CONFLICTING_VAL, 7⟩]

/-! ## Basic facts -/

theorem incr_data6_length (d : List Nat) : (incr_data6 d).length = d.length := by
  simp [incr_data6]

theorem incr_data6_at6 (d : List Nat) (h : 6 < d.length) :
    (incr_data6 d)[6]? = some ((counter d + 1) % 256) := by
  simp [incr_data6, counter, h]

theorem incr_data6_other (d : List Nat) (i : Nat) (h : i ≠ 6) :
    (incr_data6 d)[i]? = d[i]? := by
  simp [incr_data6, List.getElem?_set_ne (Ne.symm h)]

theorem counter_incr_data6 (d : List Nat) (h : 6 < d.length) :
    counter (incr_data6 d) = (counter d + 1) % 256 := by
  have := incr_data6_at6 d h
  simp only [counter, List.getD_eq_getElem?_getD] at this ⊢
  rw [this]; rfl

/-! ## The event handler -/

/-- The interested branch of the handler, as one equation. -/
theorem handler_interested (H : Headers) (s : State) (evt : rbc_mesh_event_t)
    (ht : isValueEvent evt.event_type = true)
    (hc : evt.value_handle = s.m_handle ∨ s.m_handle = 0) :
    rbc_mesh_event_handler H s evt
      = ({ s with m_data := incr_data6 s.m_data },
          [Effect.nrf_gpio_pin_toggle H.LED_START,
            Effect.rbc_mesh_value_set evt.value_handle (incr_data6 s.m_data)
              H.MAX_VALUE_LENGTH]
          ++ (if s.m_handle = 0 then
                [Effect.LOG "%c[%d] \r\n"
                  [(rbc_mesh_event_handler.cmd.getD (H.event_type_value evt.event_type)
                        (Char.ofNat 0)).toNat,
                   evt.value_handle]]
              else [])) := by
  obtain ⟨t, h⟩ := evt
  cases t <;> simp_all [rbc_mesh_event_handler, isValueEvent]

/-- The other branch of the handler, as one equation. -/
theorem handler_uninterested (H : Headers) (s : State) (evt : rbc_mesh_event_t)
    (ht : isValueEvent evt.event_type = true)
    (hc : ¬ (evt.value_handle = s.m_handle ∨ s.m_handle = 0)) :
    rbc_mesh_event_handler H s evt
      = (s, [Effect.rbc_mesh_value_disable evt.value_handle]) := by
  obtain ⟨t, h⟩ := evt
  cases t <;> simp_all [rbc_mesh_event_handler, isValueEvent]

/-- The two cases without a body. -/
theorem handler_lifecycle (H : Headers) (s : State) (evt : rbc_mesh_event_t)
    (ht : isValueEvent evt.event_type = false) :
    rbc_mesh_event_handler H s evt = (s, []) := by
  obtain ⟨t, h⟩ := evt
  cases t <;> simp_all [rbc_mesh_event_handler, isValueEvent]

/-- C1. When the filter is the event's handle or the wildcard 0, a NEW, UPDATE
or CONFLICT event on a handle `h` (any value, so each of `1..MESH_HANDLE_COUNT`)
makes exactly one value-store call, the call
`rbc_mesh_value_set(h, P, MAX_VALUE_LENGTH)` wherein `P` is the payload before
the event with byte 6 replaced by `(old + 1) % 256` and every other byte kept;
there is no `rbc_mesh_value_disable` call, `m_data` is `P` afterwards and
`m_handle` is untouched. -/
theorem event_interested_sets_once (H : Headers) (s : State)
    (t : rbc_mesh_event_type_t) (h : Nat)
    (ht : t = RBC_MESH_EVENT_TYPE_NEW_VAL ∨ t = RBC_MESH_EVENT_TYPE_UPDATE_VAL
      ∨ t = RBC_MESH_EVENT_TYPE_CONFLICTING_VAL)
    (hf : s.m_handle = h ∨ s.m_handle = 0)
    (hlen : 6 < s.m_data.length) :
    storeCalls (rbc_mesh_event_handler H s ⟨t, h⟩).2
        = [Effect.rbc_mesh_value_set h
            (s.m_data.set 6 ((s.m_data.getD 6 0 + 1) % 256)) H.MAX_VALUE_LENGTH]
      ∧ (rbc_mesh_event_handler H s ⟨t, h⟩).2.filter Effect.isDisable = []
      ∧ (rbc_mesh_event_handler H s ⟨t, h⟩).1.m_data
          = s.m_data.set 6 ((s.m_data.getD 6 0 + 1) % 256)
      ∧ (rbc_mesh_event_handler H s ⟨t, h⟩).1.m_data[6]?
          = some ((s.m_data.getD 6 0 + 1) % 256)
      ∧ (∀ i, i ≠ 6 →
          (rbc_mesh_event_handler H s ⟨t, h⟩).1.m_data[i]? = s.m_data[i]?)
      ∧ (rbc_mesh_event_handler H s ⟨t, h⟩).1.m_data.length = s.m_data.length
      ∧ (rbc_mesh_event_handler H s ⟨t, h⟩).1.m_handle = s.m_handle := by
  have hv : isValueEvent t = true := by rcases ht with rfl | rfl | rfl <;> rfl
  have e := handler_interested H s ⟨t, h⟩ hv (hf.imp Eq.symm id)
  have hP : (rbc_mesh_event_handler H s ⟨t, h⟩).1.m_data = incr_data6 s.m_data := by
    rw [e]
  have hT : storeCalls (rbc_mesh_event_handler H s ⟨t, h⟩).2
      = [Effect.rbc_mesh_value_set h (incr_data6 s.m_data) H.MAX_VALUE_LENGTH] := by
    rw [e]; by_cases h0 : s.m_handle = 0 <;> simp [h0, storeCalls, Effect.isStoreCall]
  have hD : (rbc_mesh_event_handler H s ⟨t, h⟩).2.filter Effect.isDisable = [] := by
    rw [e]; by_cases h0 : s.m_handle = 0 <;> simp [h0, Effect.isDisable]
  have hF : (rbc_mesh_event_handler H s ⟨t, h⟩).1.m_handle = s.m_handle := by
    rw [e]
  refine ⟨hT, hD, hP, ?_, ?_, ?_, hF⟩
  · rw [hP]; exact incr_data6_at6 s.m_data hlen
  · intro i hi; rw [hP]; exact incr_data6_other s.m_data i hi
  · rw [hP]; exact incr_data6_length s.m_data

theorem event_interested_sets_once_witness :
    (RBC_MESH_EVENT_TYPE_NEW_VAL = RBC_MESH_EVENT_TYPE_NEW_VAL
        ∨ RBC_MESH_EVENT_TYPE_NEW_VAL = RBC_MESH_EVENT_TYPE_UPDATE_VAL
        ∨ RBC_MESH_EVENT_TYPE_NEW_VAL = RBC_MESH_EVENT_TYPE_CONFLICTING_VAL)
      ∧ (s0.m_handle = 3 ∨ s0.m_handle = 0)
      ∧ 6 < s0.m_data.length
      ∧ storeCalls (rbc_mesh_event_handler H0 s0 ⟨RBC_MESH_EVENT_TYPE_NEW_VAL, 3⟩).2
          = [Effect.rbc_mesh_value_set 3 [1, 2, 3, 4, 5, 6, 0, 0] 28] :=
  ⟨by decide, by decide, by decide,
   (event_interested_sets_once H0 s0 RBC_MESH_EVENT_TYPE_NEW_VAL 3
      (by decide) (by decide) (by decide)).1⟩

/-- C2. When the filter is some `f ≠ 0` and the event's handle `h` differs from
it, a NEW, UPDATE or CONFLICT event on `h` makes exactly one call,
`rbc_mesh_value_disable(h)`, and leaves the whole state (every byte of the
payload, the counter included) as it was. -/
theorem event_uninterested_disables (H : Headers) (s : State)
    (t : rbc_mesh_event_type_t) (h : Nat)
    (ht : t = RBC_MESH_EVENT_TYPE_NEW_VAL ∨ t = RBC_MESH_EVENT_TYPE_UPDATE_VAL
      ∨ t = RBC_MESH_EVENT_TYPE_CONFLICTING_VAL)
    (hf : s.m_handle ≠ 0) (hne : h ≠ s.m_handle) :
    rbc_mesh_event_handler H s ⟨t, h⟩ = (s, [Effect.rbc_mesh_value_disable h])
      ∧ storeCalls (rbc_mesh_event_handler H s ⟨t, h⟩).2
          = [Effect.rbc_mesh_value_disable h]
      ∧ (rbc_mesh_event_handler H s ⟨t, h⟩).2.filter Effect.isSet = []
      ∧ (rbc_mesh_event_handler H s ⟨t, h⟩).1.m_data = s.m_data := by
  have e : rbc_mesh_event_handler H s ⟨t, h⟩ = (s, [Effect.rbc_mesh_value_disable h]) := by
    rcases ht with rfl | rfl | rfl <;> simp [rbc_mesh_event_handler, hf, hne]
  rw [e]
  simp [storeCalls, Effect.isStoreCall, Effect.isSet]

theorem event_uninterested_disables_witness :
    s0.m_handle ≠ 0 ∧ 7 ≠ s0.m_handle
      ∧ rbc_mesh_event_handler H0 s0 ⟨RBC_MESH_EVENT_TYPE_UPDATE_VAL, 7⟩
          = (s0, [Effect.rbc_mesh_value_disable 7]) :=
  ⟨by decide, by decide,
   (event_uninterested_disables H0 s0 RBC_MESH_EVENT_TYPE_UPDATE_VAL 7
      (by decide) (by decide) (by decide)).1⟩

/-! ## The command callback -/

theorem cmd_rx_short (H : Headers) (s : State) (cmd : List Nat) (len : Nat)
    (h : len ≤ 1) : cmd_rx H s cmd len = (s, []) := by
  simp [cmd_rx, h]

theorem cmd_rx_reject (H : Headers) (s : State) (cmd : List Nat) (len : Nat)
    (h : 1 < len) (hv : MESH_HANDLE_COUNT < to_uint8 (atoi cmd)) :
    cmd_rx H s cmd len
      = ({ s with m_handle := to_uint8 (atoi cmd) },
          Effect.LOG "OUT OF BOUNDS!\r\n" [] :: print_usage) := by
  simp [cmd_rx, Nat.not_le.mpr h, hv]

theorem cmd_rx_all (H : Headers) (s : State) (cmd : List Nat) (len : Nat)
    (h : 1 < len) (hv : to_uint8 (atoi cmd) = 0) :
    cmd_rx H s cmd len
      = ({ m_handle := 0, m_data := incr_data6 s.m_data },
          (List.range MESH_HANDLE_COUNT).map
            (fun i => Effect.rbc_mesh_value_set (i + 1) (incr_data6 s.m_data)
              H.MAX_VALUE_LENGTH)
          ++ [Effect.LOG "Responding to all\r\n" []]) := by
  simp [cmd_rx, Nat.not_le.mpr h, hv]

theorem cmd_rx_one (H : Headers) (s : State) (cmd : List Nat) (len : Nat)
    (h : 1 < len) (hv : to_uint8 (atoi cmd) ≤ MESH_HANDLE_COUNT)
    (h0 : to_uint8 (atoi cmd) ≠ 0) :
    cmd_rx H s cmd len
      = ({ m_handle := to_uint8 (atoi cmd), m_data := incr_data6 s.m_data },
          [Effect.rbc_mesh_value_set (to_uint8 (atoi cmd)) (incr_data6 s.m_data)
              H.MAX_VALUE_LENGTH,
            Effect.LOG "Responding to handle %d\r\n" [to_uint8 (atoi cmd)]]) := by
  simp [cmd_rx, Nat.not_le.mpr h, Nat.not_lt.mpr hv, h0]

/-! ### `atoi` against the specification's reading of the text -/

theorem digitsValue_eq_foldl (cs : List Nat) (acc : Nat) :
    digitsValue acc cs
      = (cs.takeWhile isdigit).foldl (fun a d => a * 10 + (d - 48)) acc := by
  induction cs generalizing acc with
  | nil => rfl
  | cons c cs ih =>
    by_cases hc : isdigit c = true
    · simp [digitsValue, hc, ih, List.takeWhile_cons]
    · simp [digitsValue, hc, List.takeWhile_cons]

theorem isdigit_not_space (c : Nat) (h : isdigit c = true) : isspace c = false := by
  simp only [isdigit, isspace, Bool.and_eq_true, decide_eq_true_eq, Bool.or_eq_false_iff,
    beq_eq_false_iff_ne, Bool.and_eq_false_iff, decide_eq_false_iff_not] at h ⊢
  omega

theorem isdigit_not_sign (c : Nat) (h : isdigit c = true) : c ≠ 45 ∧ c ≠ 43 := by
  simp only [isdigit, Bool.and_eq_true, decide_eq_true_eq] at h
  omega

/-- When the command starts with a digit, `atoi` is the value of its leading
digits. -/
theorem atoi_of_leadingValue (cmd : List Nat) (c : Nat) (h : leadingValue cmd = some c) :
    atoi cmd = (c : Int) := by
  cases cmd with
  | nil => simp [leadingValue, leadingDigits] at h
  | cons b bs =>
    by_cases hb : isdigit b = true
    · have hs := isdigit_not_space b hb
      have hg := isdigit_not_sign b hb
      have hv : digitsValue 0 (b :: bs) = c := by
        rw [digitsValue_eq_foldl]
        simp only [leadingValue, leadingDigits, List.takeWhile_cons, hb, if_true] at h
        simpa [List.takeWhile_cons, hb] using h
      simp [atoi, skipSpace, skipSign, hs, hg.1, hg.2, hv]
    · simp [leadingValue, leadingDigits, List.takeWhile_cons, hb] at h

theorem to_uint8_natCast (c : Nat) (h : c < 256) : to_uint8 (c : Int) = c := by
  unfold to_uint8
  omega

/-- C3 (as stated, refuted). The command `"21"` (length 2, candidate 21 > 20)
delivered in a state whose filter is 3 leaves the filter at 21, not at 3. -/
theorem cmd_reject_keeps_filter_counterexample :
    1 < (bytes "21").length
      ∧ leadingValue (bytes "21") = some 21
      ∧ MESH_HANDLE_COUNT < 21
      ∧ s0.m_handle = 3
      ∧ (cmd_rx H0 s0 (bytes "21") 2).1.m_handle = 21
      ∧ (cmd_rx H0 s0 (bytes "21") 2).1.m_handle ≠ s0.m_handle := by
  decide

/-- C3 (amended). A command of length > 1 whose candidate `c` lies in
`21..255` is rejected with the candidate stored: `m_handle` becomes `c`, the
payload is untouched and the trace is the two diagnostics.  The filter keeps
its previous value only when that value was `c` already. -/
theorem cmd_reject_stores_candidate (H : Headers) (s : State) (cmd : List Nat)
    (len c : Nat) (hlen : 1 < len) (hc : leadingValue cmd = some c)
    (hlo : MESH_HANDLE_COUNT < c) (hhi : c ≤ 255) :
    cmd_rx H s cmd len
        = ({ s with m_handle := c }, Effect.LOG "OUT OF BOUNDS!\r\n" [] :: print_usage)
      ∧ (cmd_rx H s cmd len).1.m_handle = c
      ∧ ((cmd_rx H s cmd len).1.m_handle = s.m_handle ↔ s.m_handle = c) := by
  have hv : to_uint8 (atoi cmd) = c := by
    rw [atoi_of_leadingValue cmd c hc]; exact to_uint8_natCast c (by omega)
  have e := cmd_rx_reject H s cmd len hlen (by rw [hv]; exact hlo)
  rw [hv] at e
  rw [e]
  exact ⟨rfl, rfl, ⟨fun h => h.symm, fun h => h.symm⟩⟩

theorem cmd_reject_stores_candidate_witness :
    1 < 2 ∧ leadingValue (bytes "21") = some 21 ∧ MESH_HANDLE_COUNT < 21 ∧ 21 ≤ 255
      ∧ (cmd_rx H0 s0 (bytes "21") 2).1.m_handle = 21 :=
  ⟨by decide, by decide, by decide, by decide,
   (cmd_reject_stores_candidate H0 s0 (bytes "21") 2 21
      (by decide) (by decide) (by decide) (by decide)).2.1⟩

/-- C4 (the code at the failing input). The command `"256"` (length 3,
candidate 256 > 20) is not rejected: the filter becomes the wildcard 0, the
counter goes from 255 to 0, twenty `rbc_mesh_value_set` calls are made and the
only log line is the confirmation. -/
theorem cmd_256_broadcasts :
    1 < (bytes "256").length
      ∧ leadingValue (bytes "256") = some 256
      ∧ MESH_HANDLE_COUNT < 256
      ∧ cmd_rx H0 s0 (bytes "256") 3
          = ({ m_handle := 0, m_data := [1, 2, 3, 4, 5, 6, 0, 0] },
              (List.range' 1 20).map
                (fun h => Effect.rbc_mesh_value_set h [1, 2, 3, 4, 5, 6, 0, 0] 28)
              ++ [Effect.LOG "Responding to all\r\n" []])
      ∧ (storeCalls (cmd_rx H0 s0 (bytes "256") 3).2).length = 20
      ∧ (cmd_rx H0 s0 (bytes "256") 3).1.m_data ≠ s0.m_data := by
  decide

/-- C5 (as stated, refuted). The one-byte command `"5"` (candidate 5) is
dropped by the length guard: nothing is called and the filter stays 3. -/
theorem cmd_single_byte_5_counterexample :
    (bytes "5").length = 1
      ∧ leadingValue (bytes "5") = some 5
      ∧ 1 ≤ 5 ∧ 5 ≤ MESH_HANDLE_COUNT
      ∧ cmd_rx H0 s0 (bytes "5") 1 = (s0, [])
      ∧ (cmd_rx H0 s0 (bytes "5") 1).1.m_handle ≠ 5 := by
  decide

/-- C5 (amended). A command of length > 1 whose candidate `c` lies in
`1..MESH_HANDLE_COUNT` sets `m_handle = c`, replaces byte 6 of the payload by
`(old + 1) % 256` keeping every other byte, and makes exactly one value-store
call, `rbc_mesh_value_set(c, P, MAX_VALUE_LENGTH)` with the incremented
payload `P`; there is no `rbc_mesh_value_disable` call. -/
theorem cmd_in_range_sets_one (H : Headers) (s : State) (cmd : List Nat)
    (len c : Nat) (hlen : 1 < len) (hc : leadingValue cmd = some c)
    (h1 : 1 ≤ c) (h2 : c ≤ MESH_HANDLE_COUNT) (hd : 6 < s.m_data.length) :
    (cmd_rx H s cmd len).1.m_handle = c
      ∧ (cmd_rx H s cmd len).1.m_data = s.m_data.set 6 ((s.m_data.getD 6 0 + 1) % 256)
      ∧ (cmd_rx H s cmd len).1.m_data[6]? = some ((s.m_data.getD 6 0 + 1) % 256)
      ∧ (∀ i, i ≠ 6 → (cmd_rx H s cmd len).1.m_data[i]? = s.m_data[i]?)
      ∧ storeCalls (cmd_rx H s cmd len).2
          = [Effect.rbc_mesh_value_set c
              (s.m_data.set 6 ((s.m_data.getD 6 0 + 1) % 256)) H.MAX_VALUE_LENGTH]
      ∧ (cmd_rx H s cmd len).2.filter Effect.isDisable = [] := by
  have hm : c ≤ 20 := h2
  have hv : to_uint8 (atoi cmd) = c := by
    rw [atoi_of_leadingValue cmd c hc]; exact to_uint8_natCast c (by omega)
  have e := cmd_rx_one H s cmd len hlen (by rw [hv]; exact h2) (by rw [hv]; omega)
  rw [hv] at e
  rw [e]
  refine ⟨rfl, rfl, incr_data6_at6 s.m_data hd, fun i hi => incr_data6_other s.m_data i hi,
    ?_, ?_⟩
  · simp [storeCalls, Effect.isStoreCall, incr_data6]
  · simp [Effect.isDisable]

theorem cmd_in_range_sets_one_witness :
    1 < 2 ∧ leadingValue (bytes "5\n") = some 5 ∧ 1 ≤ 5 ∧ 5 ≤ MESH_HANDLE_COUNT
      ∧ 6 < s0.m_data.length
      ∧ (cmd_rx H0 s0 (bytes "5\n") 2).1.m_handle = 5
      ∧ storeCalls (cmd_rx H0 s0 (bytes "5\n") 2).2
          = [Effect.rbc_mesh_value_set 5 [1, 2, 3, 4, 5, 6, 0, 0] 28] :=
  have w := cmd_in_range_sets_one H0 s0 (bytes "5\n") 2 5
    (by decide) (by decide) (by decide) (by decide) (by decide)
  ⟨by decide, by decide, by decide, by decide, by decide, w.1, w.2.2.2.2.1⟩

/-- The value-store calls of the broadcast loop followed by its log line. -/
theorem storeCalls_broadcast (P : List Nat) (L : Nat) (fmt : String) (args : List Nat) :
    storeCalls ((List.range MESH_HANDLE_COUNT).map
        (fun i => Effect.rbc_mesh_value_set (i + 1) P L) ++ [Effect.LOG fmt args])
      = (List.range' 1 MESH_HANDLE_COUNT).map (fun h => Effect.rbc_mesh_value_set h P L) := by
  simp only [storeCalls, List.filter_append, List.filter_map]
  have h1 : List.filter (Effect.isStoreCall ∘ fun i => Effect.rbc_mesh_value_set (i + 1) P L)
      (List.range MESH_HANDLE_COUNT) = List.range MESH_HANDLE_COUNT := by
    apply List.filter_eq_self.mpr
    intro a _
    rfl
  rw [h1]
  simp only [List.filter_cons, Effect.isStoreCall, List.filter_nil, List.append_nil]
  rfl

theorem disable_free_broadcast (P : List Nat) (L : Nat) (fmt : String) (args : List Nat) :
    ((List.range MESH_HANDLE_COUNT).map
        (fun i => Effect.rbc_mesh_value_set (i + 1) P L) ++ [Effect.LOG fmt args]).filter
      Effect.isDisable = [] := by
  rw [List.filter_eq_nil_iff]
  intro a ha
  simp only [List.mem_append, List.mem_map, List.mem_singleton] at ha
  rcases ha with ⟨i, _, rfl⟩ | rfl <;> simp [Effect.isDisable]

/-- C6 (as stated, refuted). The one-byte command `"0"` is dropped by the
length guard: the filter stays 3, the payload is untouched, nothing is called. -/
theorem cmd_single_byte_0_counterexample :
    (bytes "0").length = 1
      ∧ leadingValue (bytes "0") = some 0
      ∧ cmd_rx H0 s0 (bytes "0") 1 = (s0, [])
      ∧ (cmd_rx H0 s0 (bytes "0") 1).1.m_handle ≠ 0
      ∧ (cmd_rx H0 s0 (bytes "0") 1).2.filter Effect.isSet = [] := by
  decide

/-- C6 (amended). A command of length > 1 whose leading digits denote 0 sets
`m_handle` to the wildcard 0, replaces byte 6 of the payload by
`(old + 1) % 256` once, and its value-store calls are exactly
`rbc_mesh_value_set(h, P, MAX_VALUE_LENGTH)` for `h = 1, 2, ..., MESH_HANDLE_COUNT`
in this order, all with the same incremented payload `P`; there is no
`rbc_mesh_value_disable` call. -/
theorem cmd_zero_broadcasts (H : Headers) (s : State) (cmd : List Nat) (len : Nat)
    (hlen : 1 < len) (hc : leadingValue cmd = some 0) (hd : 6 < s.m_data.length) :
    (cmd_rx H s cmd len).1.m_handle = 0
      ∧ (cmd_rx H s cmd len).1.m_data = s.m_data.set 6 ((s.m_data.getD 6 0 + 1) % 256)
      ∧ (cmd_rx H s cmd len).1.m_data[6]? = some ((s.m_data.getD 6 0 + 1) % 256)
      ∧ (∀ i, i ≠ 6 → (cmd_rx H s cmd len).1.m_data[i]? = s.m_data[i]?)
      ∧ storeCalls (cmd_rx H s cmd len).2
          = (List.range' 1 MESH_HANDLE_COUNT).map
              (fun h => Effect.rbc_mesh_value_set h
                (s.m_data.set 6 ((s.m_data.getD 6 0 + 1) % 256)) H.MAX_VALUE_LENGTH)
      ∧ (storeCalls (cmd_rx H s cmd len).2).length = MESH_HANDLE_COUNT
      ∧ (cmd_rx H s cmd len).2.filter Effect.isDisable = [] := by
  have hv : to_uint8 (atoi cmd) = 0 := by
    rw [atoi_of_leadingValue cmd 0 hc]; rfl
  rw [cmd_rx_all H s cmd len hlen hv]
  refine ⟨rfl, rfl, incr_data6_at6 s.m_data hd, fun i hi => incr_data6_other s.m_data i hi,
    ?_, ?_, ?_⟩
  · exact storeCalls_broadcast _ _ _ _
  · simp only [storeCalls_broadcast]; simp
  · exact disable_free_broadcast _ _ _ _

theorem cmd_zero_broadcasts_witness :
    1 < 2 ∧ leadingValue (bytes "0\n") = some 0 ∧ 6 < s0.m_data.length
      ∧ (cmd_rx H0 s0 (bytes "0\n") 2).1.m_handle = 0
      ∧ (storeCalls (cmd_rx H0 s0 (bytes "0\n") 2).2).length = MESH_HANDLE_COUNT :=
  have w := cmd_zero_broadcasts H0 s0 (bytes "0\n") 2 (by decide) (by decide) (by decide)
  ⟨by decide, by decide, by decide, w.1, w.2.2.2.2.2.1⟩

/-- C7 (as stated, refuted). The commands `"+7"`, `"-5"` and `" 9"` have length
2 and a first byte that is no digit, yet `atoi` reads 7, -5 and 9: the filter
becomes 7, 251 and 9, and the first makes the single call
`rbc_mesh_value_set(7, ...)` in place of a broadcast. -/
theorem cmd_signed_text_counterexample :
    1 < (bytes "+7").length
      ∧ (bytes "+7").head?.map isdigit = some false
      ∧ atoi (bytes "+7") = 7
      ∧ (cmd_rx H0 s0 (bytes "+7") 2).1.m_handle = 7
      ∧ storeCalls (cmd_rx H0 s0 (bytes "+7") 2).2
          = [Effect.rbc_mesh_value_set 7 [1, 2, 3, 4, 5, 6, 0, 0] 28]
      ∧ (bytes "-5").head?.map isdigit = some false
      ∧ atoi (bytes "-5") = -5
      ∧ cmd_rx H0 s0 (bytes "-5") 2
          = ({ s0 with m_handle := 251 }, Effect.LOG "OUT OF BOUNDS!\r\n" [] :: print_usage)
      ∧ (bytes " 9").head?.map isdigit = some false
      ∧ (cmd_rx H0 s0 (bytes " 9") 2).1.m_handle = 9 := by
  decide

theorem digitsValue_zero_of_no_digit (l : List Nat) (h : startsWithDigit l = false) :
    digitsValue 0 l = 0 := by
  cases l with
  | nil => rfl
  | cons b bs =>
    simp only [startsWithDigit] at h
    simp [digitsValue, h]

theorem atoi_zero_of_no_digit (cmd : List Nat)
    (h : startsWithDigit (skipSign (skipSpace cmd)) = false) : atoi cmd = 0 := by
  simp [atoi, digitsValue_zero_of_no_digit _ h]

/-- C7 (amended). A command of length > 1 whose text, after the white space
and the one optional sign that `atoi` skips, does not begin with a decimal
digit (so `"abc"`, but not `"+7"`, `"-5"` or `" 9"`) parses to 0 and selects
the wildcard: `m_handle` becomes 0 and the value-store calls are
`rbc_mesh_value_set(h, P, MAX_VALUE_LENGTH)` for `h = 1, ..., MESH_HANDLE_COUNT`
with the incremented payload `P`. -/
theorem cmd_no_digit_is_wildcard (H : Headers) (s : State) (cmd : List Nat) (len : Nat)
    (hlen : 1 < len) (hnd : startsWithDigit (skipSign (skipSpace cmd)) = false) :
    atoi cmd = 0
      ∧ (cmd_rx H s cmd len).1.m_handle = 0
      ∧ (cmd_rx H s cmd len).1.m_data = s.m_data.set 6 ((s.m_data.getD 6 0 + 1) % 256)
      ∧ storeCalls (cmd_rx H s cmd len).2
          = (List.range' 1 MESH_HANDLE_COUNT).map
              (fun h => Effect.rbc_mesh_value_set h
                (s.m_data.set 6 ((s.m_data.getD 6 0 + 1) % 256)) H.MAX_VALUE_LENGTH) := by
  have ha := atoi_zero_of_no_digit cmd hnd
  have hv : to_uint8 (atoi cmd) = 0 := by rw [ha]; rfl
  rw [cmd_rx_all H s cmd len hlen hv]
  exact ⟨ha, rfl, rfl, storeCalls_broadcast _ _ _ _⟩

theorem cmd_no_digit_is_wildcard_witness :
    1 < 3 ∧ startsWithDigit (skipSign (skipSpace (bytes "abc"))) = false
      ∧ atoi (bytes "abc") = 0
      ∧ (cmd_rx H0 s0 (bytes "abc") 3).1.m_handle = 0 :=
  have w := cmd_no_digit_is_wildcard H0 s0 (bytes "abc") 3 (by decide) (by decide)
  ⟨by decide, by decide, w.1, w.2.1⟩

/-- C8. A command of length 0 or 1 is dropped whatever its bytes: the state
(filter and payload) is unchanged and the trace is empty, so there is no
`rbc_mesh_value_set`, no `rbc_mesh_value_disable` and no log line. -/
theorem cmd_short_is_noop (H : Headers) (s : State) (cmd : List Nat) (len : Nat)
    (hlen : len ≤ 1) :
    cmd_rx H s cmd len = (s, []) := by
  simp [cmd_rx, hlen]

theorem cmd_short_is_noop_witness :
    (bytes "5").length ≤ 1 ∧ cmd_rx H0 s0 (bytes "5") (bytes "5").length = (s0, []) :=
  ⟨by decide, cmd_short_is_noop H0 s0 (bytes "5") (bytes "5").length (by decide)⟩

/-! ## Runs -/

theorem run_replicate_noop (H : Headers) (s : State) (i : Input)
    (h : react H s i = (s, [])) (n : Nat) :
    run H s (List.replicate n i) = (s, []) := by
  induction n with
  | zero => rfl
  | succ n ih => simp [List.replicate_succ, run, h, ih]

/-- C9. An INITIALIZED or TX event, on any handle value, leaves the state
(filter and payload) unchanged and has the empty trace: no
`rbc_mesh_value_set`, no `rbc_mesh_value_disable`, no log line.  Hence
delivering it `n` times gives the same state and the same (empty) trace as
delivering it zero times. -/
theorem lifecycle_event_is_noop (H : Headers) (s : State)
    (t : rbc_mesh_event_type_t) (h n : Nat)
    (ht : t = RBC_MESH_EVENT_TYPE_INITIALIZED ∨ t = RBC_MESH_EVENT_TYPE_TX) :
    rbc_mesh_event_handler H s ⟨t, h⟩ = (s, [])
      ∧ run H s (List.replicate n (Input.event ⟨t, h⟩)) = run H s [] := by
  have e : rbc_mesh_event_handler H s ⟨t, h⟩ = (s, []) := by
    rcases ht with rfl | rfl <;> rfl
  exact ⟨e, run_replicate_noop H s (Input.event ⟨t, h⟩) e n⟩

theorem lifecycle_event_is_noop_witness :
    (RBC_MESH_EVENT_TYPE_TX = RBC_MESH_EVENT_TYPE_INITIALIZED
        ∨ RBC_MESH_EVENT_TYPE_TX = RBC_MESH_EVENT_TYPE_TX)
      ∧ rbc_mesh_event_handler H0 s0 ⟨RBC_MESH_EVENT_TYPE_TX, 3⟩ = (s0, [])
      ∧ run H0 s0 (List.replicate 4 (Input.event ⟨RBC_MESH_EVENT_TYPE_TX, 3⟩)) = (s0, []) :=
  ⟨by decide, lifecycle_event_is_noop H0 s0 RBC_MESH_EVENT_TYPE_TX 3 4 (by decide)⟩

/-- An event republishes exactly when it is a NEW, UPDATE or CONFLICT event the
node is interested in. -/
theorem republishes_event (H : Headers) (s : State) (evt : rbc_mesh_event_t) :
    republishes H s (Input.event evt) = true
      ↔ isValueEvent evt.event_type = true
          ∧ (evt.value_handle = s.m_handle ∨ s.m_handle = 0) := by
  by_cases hv : isValueEvent evt.event_type = true
  · by_cases hc : evt.value_handle = s.m_handle ∨ s.m_handle = 0
    · have e := handler_interested H s evt hv hc
      simp [republishes, react, e, Effect.isSet, hv, hc]
    · have e := handler_uninterested H s evt hv hc
      simp [republishes, react, e, Effect.isSet, hc]
  · have e := handler_lifecycle H s evt (by simpa using hv)
    simp [republishes, react, e, hv]

/-- A command republishes exactly when it is accepted: longer than one byte and
with a stored handle of at most `MESH_HANDLE_COUNT`. -/
theorem republishes_command (H : Headers) (s : State) (cmd : List Nat) (len : Nat) :
    republishes H s (Input.command cmd len) = true
      ↔ 1 < len ∧ to_uint8 (atoi cmd) ≤ MESH_HANDLE_COUNT := by
  by_cases hl : len ≤ 1
  · simp [republishes, react, cmd_rx_short H s cmd len hl, Nat.not_lt.mpr hl]
  · have hl2 : 1 < len := Nat.lt_of_not_le hl
    by_cases hr : MESH_HANDLE_COUNT < to_uint8 (atoi cmd)
    · simp [republishes, react, cmd_rx_reject H s cmd len hl2 hr, print_usage,
        Effect.isSet, Nat.not_le.mpr hr]
    · by_cases hz : to_uint8 (atoi cmd) = 0
      · have e := cmd_rx_all H s cmd len hl2 hz
        have hany : (react H s (Input.command cmd len)).2.any Effect.isSet = true := by
          simp only [react, e, MESH_HANDLE_COUNT, List.range_succ_eq_map, List.map_cons,
            List.cons_append, List.any_cons, Effect.isSet, Bool.true_or]
        have hrep : republishes H s (Input.command cmd len) = true := hany
        simp [hrep, hl2, Nat.le_of_not_lt hr]
      · have e := cmd_rx_one H s cmd len hl2 (Nat.le_of_not_lt hr) hz
        simp [republishes, react, e, Effect.isSet, hl2, Nat.le_of_not_lt hr]

/-- Each reaction either republishes and performs `m_data[6]++` once, or does
not republish and leaves the payload alone. -/
theorem react_data (H : Headers) (s : State) (i : Input) :
    (react H s i).1.m_data
      = if republishes H s i then incr_data6 s.m_data else s.m_data := by
  cases i with
  | event evt =>
    by_cases hv : isValueEvent evt.event_type = true
    · by_cases hc : evt.value_handle = s.m_handle ∨ s.m_handle = 0
      · have e := handler_interested H s evt hv hc
        simp [republishes, react, e, Effect.isSet]
      · have e := handler_uninterested H s evt hv hc
        simp [republishes, react, e, Effect.isSet]
    · have e := handler_lifecycle H s evt (by simpa using hv)
      simp [republishes, react, e]
  | command cmd len =>
    by_cases hl : len ≤ 1
    · simp [republishes, react, cmd_rx_short H s cmd len hl]
    · have hl2 : 1 < len := Nat.lt_of_not_le hl
      by_cases hr : MESH_HANDLE_COUNT < to_uint8 (atoi cmd)
      · simp [republishes, react, cmd_rx_reject H s cmd len hl2 hr, print_usage,
          Effect.isSet]
      · by_cases hz : to_uint8 (atoi cmd) = 0
        · have e := cmd_rx_all H s cmd len hl2 hz
          have hany : (react H s (Input.command cmd len)).2.any Effect.isSet = true := by
            simp only [react, e, MESH_HANDLE_COUNT, List.range_succ_eq_map, List.map_cons,
              List.cons_append, List.any_cons, Effect.isSet, Bool.true_or]
          have hrep : republishes H s (Input.command cmd len) = true := hany
          rw [hrep]
          simp [react, e]
        · have e := cmd_rx_one H s cmd len hl2 (Nat.le_of_not_lt hr) hz
          simp [republishes, react, e, Effect.isSet]

theorem react_length (H : Headers) (s : State) (i : Input) :
    (react H s i).1.m_data.length = s.m_data.length := by
  rw [react_data]
  split <;> simp [incr_data6_length]

theorem react_counter (H : Headers) (s : State) (i : Input)
    (hd : 6 < s.m_data.length) (hb : counter s.m_data < 256) :
    counter (react H s i).1.m_data
      = (counter s.m_data + (if republishes H s i then 1 else 0)) % 256 := by
  rw [react_data]
  split
  · exact counter_incr_data6 s.m_data hd
  · simp [Nat.mod_eq_of_lt hb]

/-- C10. From any start state whose payload has a byte 6 (a `uint8_t`, so below
256) and along any finite sequence of events and commands, the final counter
byte is `(initial + k) % 256` with `k` the number of reactions that republish
(that call `rbc_mesh_value_set`), each counted once; so when `k` is 256 the
counter is back at its initial value.  The republishing reactions are the
NEW, UPDATE and CONFLICT events the node is interested in and the accepted
commands, the wildcard broadcast included.  The run is a total function:
there is no fault. -/
theorem counter_tracks_republishes (H : Headers) (s : State) (is : List Input)
    (hd : 6 < s.m_data.length) (hb : counter s.m_data < 256) :
    counter (run H s is).1.m_data
        = (counter s.m_data + countRepublish H s is) % 256
      ∧ (countRepublish H s is = 256 →
          counter (run H s is).1.m_data = counter s.m_data)
      ∧ (∀ (s1 : State) (evt : rbc_mesh_event_t),
          republishes H s1 (Input.event evt) = true
            ↔ isValueEvent evt.event_type = true
                ∧ (evt.value_handle = s1.m_handle ∨ s1.m_handle = 0))
      ∧ (∀ (s1 : State) (cmd : List Nat) (len : Nat),
          republishes H s1 (Input.command cmd len) = true
            ↔ 1 < len ∧ to_uint8 (atoi cmd) ≤ MESH_HANDLE_COUNT) := by
  have main : ∀ (is : List Input) (s : State), 6 < s.m_data.length →
      counter s.m_data < 256 →
      counter (run H s is).1.m_data = (counter s.m_data + countRepublish H s is) % 256 := by
    intro is
    induction is with
    | nil =>
      intro s _ hb
      simp [run, countRepublish, Nat.mod_eq_of_lt hb]
    | cons i is ih =>
      intro s hd hb
      have h1 := react_counter H s i hd hb
      have hd1 : 6 < (react H s i).1.m_data.length := by rw [react_length]; exact hd
      have hb1 : counter (react H s i).1.m_data < 256 := by
        rw [h1]; exact Nat.mod_lt _ (by decide)
      have h2 := ih (react H s i).1 hd1 hb1
      simp only [run, countRepublish]
      rw [h2, h1]
      omega
  refine ⟨main is s hd hb, fun hk => ?_, fun s1 evt => republishes_event H s1 evt,
    fun s1 cmd len => republishes_command H s1 cmd len⟩
  rw [main is s hd hb, hk]
  omega

theorem counter_tracks_republishes_witness :
    6 < s0.m_data.length ∧ counter s0.m_data < 256
      ∧ countRepublish H0 s0 inputs0 = 5
      ∧ counter s0.m_data = 255
      ∧ counter (run H0 s0 inputs0).1.m_data
          = (counter s0.m_data + countRepublish H0 s0 inputs0) % 256 :=
  ⟨by decide, by decide, by decide, by decide,
   (counter_tracks_republishes H0 s0 inputs0 (by decide) (by decide)).1⟩

/-! ## Events only -/

theorem run_cons (H : Headers) (s : State) (i : Input) (is : List Input) :
    run H s (i :: is)
      = ((run H (react H s i).1 is).1, (react H s i).2 ++ (run H (react H s i).1 is).2) :=
  rfl

/-- The handler never writes `m_handle`. -/
theorem handler_keeps_handle (H : Headers) (s : State) (evt : rbc_mesh_event_t) :
    (rbc_mesh_event_handler H s evt).1.m_handle = s.m_handle := by
  by_cases hv : isValueEvent evt.event_type = true
  · by_cases hc : evt.value_handle = s.m_handle ∨ s.m_handle = 0
    · rw [handler_interested H s evt hv hc]
    · rw [handler_uninterested H s evt hv hc]
  · rw [handler_lifecycle H s evt (by simpa using hv)]

theorem handleInRange_iff (h : Nat) :
    handleInRange h = true ↔ 1 ≤ h ∧ h ≤ MESH_HANDLE_COUNT := by
  simp [handleInRange]

/-- With the filter at the sentinel, an event on a handle of the mesh is
answered by `rbc_mesh_value_disable` or not at all. -/
theorem handler_unset (H : Headers) (s : State) (evt : rbc_mesh_event_t)
    (hs : s.m_handle = INVALID_HANDLE) (hh : handleInRange evt.value_handle = true) :
    rbc_mesh_event_handler H s evt
      = (s, if isValueEvent evt.event_type then
              [Effect.rbc_mesh_value_disable evt.value_handle] else []) := by
  have hr := (handleInRange_iff _).mp hh
  have h20 : MESH_HANDLE_COUNT = 20 := rfl
  have h255 : INVALID_HANDLE = 255 := rfl
  by_cases hv : isValueEvent evt.event_type = true
  · have hc : ¬ (evt.value_handle = s.m_handle ∨ s.m_handle = 0) := by
      rw [hs]; omega
    rw [handler_uninterested H s evt hv hc]; simp [hv]
  · rw [handler_lifecycle H s evt (by simpa using hv)]; simp [hv]

/-- C11. From a state whose filter is the unset sentinel `INVALID_HANDLE`
(0xFF), the initial state in particular, a finite sequence of events on handles
`1..MESH_HANDLE_COUNT` with no command leaves the whole state as it was (the
payload is never mutated) and its trace is one `rbc_mesh_value_disable(h)` for
each NEW, UPDATE or CONFLICT event on `h`, in order, and nothing else: there is
no `rbc_mesh_value_set` call.  Each such event alone yields exactly
`rbc_mesh_value_disable(h)`. -/
theorem unset_filter_reacts_to_nothing (H : Headers) (s : State)
    (evts : List rbc_mesh_event_t)
    (hs : s.m_handle = INVALID_HANDLE)
    (hh : evts.all (fun e => handleInRange e.value_handle) = true) :
    run H s (evts.map Input.event)
        = (s, (evts.filter (fun e => isValueEvent e.event_type)).map
                (fun e => Effect.rbc_mesh_value_disable e.value_handle))
      ∧ (run H s (evts.map Input.event)).2.filter Effect.isSet = []
      ∧ (run H s (evts.map Input.event)).1.m_data = s.m_data
      ∧ (∀ e ∈ evts, isValueEvent e.event_type = true →
          rbc_mesh_event_handler H s e
            = (s, [Effect.rbc_mesh_value_disable e.value_handle])) := by
  have main : ∀ (evts : List rbc_mesh_event_t),
      evts.all (fun e => handleInRange e.value_handle) = true →
      run H s (evts.map Input.event)
        = (s, (evts.filter (fun e => isValueEvent e.event_type)).map
                (fun e => Effect.rbc_mesh_value_disable e.value_handle)) := by
    intro evts
    induction evts with
    | nil => intro _; rfl
    | cons e es ih =>
      intro hall
      simp only [List.all_cons, Bool.and_eq_true] at hall
      have he := handler_unset H s e hs hall.1
      have hr : react H s (Input.event e)
          = (s, if isValueEvent e.event_type then
                  [Effect.rbc_mesh_value_disable e.value_handle] else []) := he
      rw [List.map_cons, run_cons, hr]
      simp only [ih hall.2]
      by_cases hv : isValueEvent e.event_type = true
      · simp [hv, List.filter_cons]
      · simp [hv, List.filter_cons]
  have e := main evts hh
  refine ⟨e, ?_, ?_, ?_⟩
  · rw [e, List.filter_eq_nil_iff]
    intro a ha
    simp only [List.mem_map] at ha
    obtain ⟨x, _, rfl⟩ := ha
    simp [Effect.isSet]
  · rw [e]
  · intro x hx hv
    have hxr : handleInRange x.value_handle = true := by
      have := List.all_eq_true.mp hh x hx
      simpa using this
    rw [handler_unset H s x hs hxr]; simp [hv]

theorem unset_filter_reacts_to_nothing_witness :
    (State.init H0).m_handle = INVALID_HANDLE
      ∧ events0.all (fun e => handleInRange e.value_handle) = true
      ∧ run H0 (State.init H0) (events0.map Input.event)
          = (State.init H0,
              [Effect.rbc_mesh_value_disable 1, Effect.rbc_mesh_value_disable 20,
               Effect.rbc_mesh_value_disable 7]) :=
  ⟨by decide, by decide,
   (unset_filter_reacts_to_nothing H0 (State.init H0) events0 (by decide) (by decide)).1⟩

/-! ## Frames -/

theorem react_other_bytes (H : Headers) (s : State) (inp : Input) (i : Nat) (hi : i ≠ 6) :
    (react H s inp).1.m_data[i]? = s.m_data[i]? := by
  rw [react_data]
  split
  · exact incr_data6_other s.m_data i hi
  · rfl

/-- C12. Both callbacks leave every payload byte but the counter alone: after
`rbc_mesh_event_handler` on any event and after `cmd_rx` on any command, each
byte at an index other than 6 (the identifier bytes 0..5 and every byte from 7
on) is what it was, and the payload has the same length; the same holds along
any run. -/
theorem payload_frame (H : Headers) (s : State) :
    (∀ (evt : rbc_mesh_event_t) (i : Nat), i ≠ 6 →
        (rbc_mesh_event_handler H s evt).1.m_data[i]? = s.m_data[i]?)
      ∧ (∀ (cmd : List Nat) (len i : Nat), i ≠ 6 →
        (cmd_rx H s cmd len).1.m_data[i]? = s.m_data[i]?)
      ∧ (∀ (evt : rbc_mesh_event_t),
        (rbc_mesh_event_handler H s evt).1.m_data.length = s.m_data.length)
      ∧ (∀ (cmd : List Nat) (len : Nat),
        (cmd_rx H s cmd len).1.m_data.length = s.m_data.length)
      ∧ (∀ (is : List Input) (i : Nat), i ≠ 6 →
        (run H s is).1.m_data[i]? = s.m_data[i]?) := by
  refine ⟨fun evt i hi => react_other_bytes H s (Input.event evt) i hi,
    fun cmd len i hi => react_other_bytes H s (Input.command cmd len) i hi,
    fun evt => react_length H s (Input.event evt),
    fun cmd len => react_length H s (Input.command cmd len), ?_⟩
  intro is
  induction is generalizing s with
  | nil => intro i _; rfl
  | cons x xs ih =>
    intro i hi
    rw [run_cons]
    exact (ih (react H s x).1 i hi).trans (react_other_bytes H s x i hi)

/-- C13. `rbc_mesh_event_handler` leaves `m_handle` unchanged, for each of the
five event types and any handle value; hence so does any run made of events
only. -/
theorem event_keeps_filter (H : Headers) (s : State) :
    (∀ (evt : rbc_mesh_event_t),
        (rbc_mesh_event_handler H s evt).1.m_handle = s.m_handle)
      ∧ (∀ (evts : List rbc_mesh_event_t),
        (run H s (evts.map Input.event)).1.m_handle = s.m_handle) := by
  refine ⟨fun evt => handler_keeps_handle H s evt, ?_⟩
  intro evts
  induction evts generalizing s with
  | nil => rfl
  | cons e es ih =>
    rw [List.map_cons, run_cons]
    exact (ih (react H s (Input.event e)).1).trans (handler_keeps_handle H s e)

/-! ## The log line of the handler -/

/-- The five characters of the tag table are pairwise distinct, also by their
character codes. -/
theorem cmd_getD_inj (a b : Nat) (ha : a < 5) (hb : b < 5)
    (h : (rbc_mesh_event_handler.cmd.getD a (Char.ofNat 0)).toNat
        = (rbc_mesh_event_handler.cmd.getD b (Char.ofNat 0)).toNat) : a = b := by
  interval_cases a <;> interval_cases b <;>
    first
      | rfl
      | (exfalso; revert h; decide)

/-- C14. The enumerator values come from `rbc_mesh.h`; they are pairwise
distinct (they label the cases of one `switch`) and index the five-entry table.
In an interested reaction to a NEW, UPDATE or CONFLICT event on `h` the log
lines are: exactly one line `"%c[%d] \r\n"` with the tag of the event type and
`h` when `m_handle = 0`, none otherwise; so a line is logged if and only if the
filter is the wildcard, and none when the filter is `h ≠ 0`.  The tag is a
function of the event type alone and different event types have different
tags; the table itself has no repeated character. -/
theorem interested_event_log (H : Headers) (s : State)
    (t : rbc_mesh_event_type_t) (h : Nat)
    (ht : t = RBC_MESH_EVENT_TYPE_NEW_VAL ∨ t = RBC_MESH_EVENT_TYPE_UPDATE_VAL
      ∨ t = RBC_MESH_EVENT_TYPE_CONFLICTING_VAL)
    (hf : s.m_handle = h ∨ s.m_handle = 0)
    (hrange : ∀ t, H.event_type_value t < 5)
    (hinj : Function.Injective H.event_type_value) :
    logLines (rbc_mesh_event_handler H s ⟨t, h⟩).2
        = (if s.m_handle = 0 then
            [Effect.LOG "%c[%d] \r\n" [(eventTag H t).toNat, h]]
          else [])
      ∧ (logLines (rbc_mesh_event_handler H s ⟨t, h⟩).2 ≠ [] ↔ s.m_handle = 0)
      ∧ (s.m_handle ≠ 0 → (rbc_mesh_event_handler H s ⟨t, h⟩).2.filter Effect.isLog = [])
      ∧ (∀ t1 t2, (eventTag H t1).toNat = (eventTag H t2).toNat → t1 = t2)
      ∧ (∀ t1 t2, eventTag H t1 = eventTag H t2 → t1 = t2)
      ∧ rbc_mesh_event_handler.cmd.Nodup
      ∧ rbc_mesh_event_handler.cmd.length = 5 := by
  have hv : isValueEvent t = true := by rcases ht with rfl | rfl | rfl <;> rfl
  have e := handler_interested H s ⟨t, h⟩ hv (hf.imp Eq.symm id)
  have hL : logLines (rbc_mesh_event_handler H s ⟨t, h⟩).2
      = (if s.m_handle = 0 then
          [Effect.LOG "%c[%d] \r\n" [(eventTag H t).toNat, h]]
        else []) := by
    rw [e]
    by_cases h0 : s.m_handle = 0 <;> simp [h0, logLines, Effect.isLog, eventTag]
  have hT : ∀ t1 t2, (eventTag H t1).toNat = (eventTag H t2).toNat → t1 = t2 :=
    fun t1 t2 h12 => hinj (cmd_getD_inj _ _ (hrange t1) (hrange t2) h12)
  refine ⟨hL, ?_, ?_, hT, fun t1 t2 h12 => hT t1 t2 (by rw [h12]), by decide, rfl⟩
  · rw [hL]; by_cases h0 : s.m_handle = 0 <;> simp [h0]
  · intro h0
    have := hL
    simp only [logLines, h0, if_false] at this
    exact this

theorem H0_event_type_value_injective : Function.Injective H0.event_type_value := by
  intro a b hab
  cases a <;> cases b <;> first | rfl | (exfalso; revert hab; decide)

theorem H0_event_type_value_lt (t : rbc_mesh_event_type_t) :
    H0.event_type_value t < 5 := by
  cases t <;> decide

theorem interested_event_log_witness :
    (sW.m_handle = 7 ∨ sW.m_handle = 0)
      ∧ (∀ t, H0.event_type_value t < 5)
      ∧ Function.Injective H0.event_type_value
      ∧ logLines (rbc_mesh_event_handler H0 sW ⟨RBC_MESH_EVENT_TYPE_NEW_VAL, 7⟩).2
          = [Effect.LOG "%c[%d] \r\n" [('N').toNat, 7]] :=
  ⟨by decide, H0_event_type_value_lt, H0_event_type_value_injective,
    ((interested_event_log H0 sW RBC_MESH_EVENT_TYPE_NEW_VAL 7
      (by decide) (by decide) H0_event_type_value_lt
      H0_event_type_value_injective).1).trans (by decide)⟩

/-! ## The stored handle and the accept decision -/

theorem to_uint8_lt (n : Int) : to_uint8 n < 256 := by
  unfold to_uint8
  omega

/-- Past the length guard `m_handle` is `(uint8_t) atoi(cmd)` on every path. -/
theorem cmd_rx_handle (H : Headers) (s : State) (cmd : List Nat) (len : Nat)
    (hlen : 1 < len) : (cmd_rx H s cmd len).1.m_handle = to_uint8 (atoi cmd) := by
  by_cases hr : MESH_HANDLE_COUNT < to_uint8 (atoi cmd)
  · rw [cmd_rx_reject H s cmd len hlen hr]
  · by_cases hz : to_uint8 (atoi cmd) = 0
    · rw [cmd_rx_all H s cmd len hlen hz, hz]
    · rw [cmd_rx_one H s cmd len hlen (Nat.le_of_not_lt hr) hz]

/-- The out-of-bounds notice is logged on the rejecting path only. -/
theorem cmd_rx_notice_iff (H : Headers) (s : State) (cmd : List Nat) (len : Nat)
    (hlen : 1 < len) :
    Effect.LOG "OUT OF BOUNDS!\r\n" [] ∈ (cmd_rx H s cmd len).2
      ↔ MESH_HANDLE_COUNT < to_uint8 (atoi cmd) := by
  by_cases hr : MESH_HANDLE_COUNT < to_uint8 (atoi cmd)
  · rw [cmd_rx_reject H s cmd len hlen hr]; simp [hr]
  · by_cases hz : to_uint8 (atoi cmd) = 0
    · rw [cmd_rx_all H s cmd len hlen hz]; simp [hr]
    · rw [cmd_rx_one H s cmd len hlen (Nat.le_of_not_lt hr) hz]; simp [hr]

/-- C15. For a command of length > 1 whose text `atoi` reads as `n`, the filter
after `cmd_rx` is `n mod 256` on every path, the rejecting one included: the
store into `m_handle` comes before the bounds check.  After a rejected command
(one that logs the out-of-bounds notice) the stored filter lies in `21..255`. -/
theorem cmd_filter_is_atoi_mod_256 (H : Headers) (s : State) (cmd : List Nat)
    (len : Nat) (hlen : 1 < len) :
    (((cmd_rx H s cmd len).1.m_handle : Nat) : Int) = atoi cmd % 256
      ∧ (cmd_rx H s cmd len).1.m_handle = (atoi cmd % 256).toNat
      ∧ (Effect.LOG "OUT OF BOUNDS!\r\n" [] ∈ (cmd_rx H s cmd len).2 →
          (cmd_rx H s cmd len).1.m_handle = (atoi cmd % 256).toNat
            ∧ 21 ≤ (cmd_rx H s cmd len).1.m_handle
            ∧ (cmd_rx H s cmd len).1.m_handle ≤ 255) := by
  have hh := cmd_rx_handle H s cmd len hlen
  have hlt := to_uint8_lt (atoi cmd)
  have h20 : MESH_HANDLE_COUNT = 20 := rfl
  refine ⟨?_, hh, fun hn => ⟨hh, ?_, ?_⟩⟩
  · rw [hh]; unfold to_uint8; omega
  · have := (cmd_rx_notice_iff H s cmd len hlen).mp hn
    rw [hh]; omega
  · rw [hh]; omega

theorem cmd_filter_is_atoi_mod_256_witness :
    1 < 3 ∧ atoi (bytes "300") = 300
      ∧ (cmd_rx H0 s0 (bytes "300") 3).1.m_handle = 44
      ∧ Effect.LOG "OUT OF BOUNDS!\r\n" [] ∈ (cmd_rx H0 s0 (bytes "300") 3).2 :=
  ⟨by decide, by decide,
   ((cmd_filter_is_atoi_mod_256 H0 s0 (bytes "300") 3 (by decide)).2.1).trans (by decide),
   by decide⟩

/-- C16. For a command of length > 1 whose text `atoi` reads as `n`, what
`cmd_rx` does is a function of `n mod 256` alone: it republishes (makes a
`rbc_mesh_value_set` call and performs `m_data[6]++`) if and only if
`n mod 256 ≤ MESH_HANDLE_COUNT`; then with `n mod 256 = 0` the calls are
`rbc_mesh_value_set(h, P, ...)` for `h = 1..MESH_HANDLE_COUNT`, and otherwise
the single call `rbc_mesh_value_set(n mod 256, P, ...)`; with
`n mod 256 > MESH_HANDLE_COUNT` there is no call and the payload is kept.
So `"256"` broadcasts and `"261"` configures handle 5. -/
theorem cmd_decision_mod_256 (H : Headers) (s : State) (cmd : List Nat)
    (len : Nat) (hlen : 1 < len) :
    ((∃ e ∈ (cmd_rx H s cmd len).2, e.isSet = true)
        ↔ (atoi cmd % 256).toNat ≤ MESH_HANDLE_COUNT)
      ∧ ((atoi cmd % 256).toNat ≤ MESH_HANDLE_COUNT →
          (cmd_rx H s cmd len).1.m_data = s.m_data.set 6 ((s.m_data.getD 6 0 + 1) % 256))
      ∧ (MESH_HANDLE_COUNT < (atoi cmd % 256).toNat →
          (cmd_rx H s cmd len).1.m_data = s.m_data ∧ storeCalls (cmd_rx H s cmd len).2 = [])
      ∧ ((atoi cmd % 256).toNat = 0 →
          storeCalls (cmd_rx H s cmd len).2
            = (List.range' 1 MESH_HANDLE_COUNT).map
                (fun h => Effect.rbc_mesh_value_set h
                  (s.m_data.set 6 ((s.m_data.getD 6 0 + 1) % 256)) H.MAX_VALUE_LENGTH))
      ∧ ((atoi cmd % 256).toNat ≠ 0 → (atoi cmd % 256).toNat ≤ MESH_HANDLE_COUNT →
          storeCalls (cmd_rx H s cmd len).2
            = [Effect.rbc_mesh_value_set (atoi cmd % 256).toNat
                (s.m_data.set 6 ((s.m_data.getD 6 0 + 1) % 256)) H.MAX_VALUE_LENGTH])
      ∧ (∀ (cmd2 : List Nat) (len2 : Nat), 1 < len2 → atoi cmd2 % 256 = atoi cmd % 256 →
          cmd_rx H s cmd2 len2 = cmd_rx H s cmd len)
      ∧ storeCalls (cmd_rx H s (bytes "256") 3).2
          = (List.range' 1 MESH_HANDLE_COUNT).map
              (fun h => Effect.rbc_mesh_value_set h
                (s.m_data.set 6 ((s.m_data.getD 6 0 + 1) % 256)) H.MAX_VALUE_LENGTH)
      ∧ (cmd_rx H s (bytes "261") 3).1.m_handle = 5
      ∧ storeCalls (cmd_rx H s (bytes "261") 3).2
          = [Effect.rbc_mesh_value_set 5
              (s.m_data.set 6 ((s.m_data.getD 6 0 + 1) % 256)) H.MAX_VALUE_LENGTH] := by
  have hrep := republishes_command H s cmd len
  simp only [republishes, react, List.any_eq_true, hlen, true_and] at hrep
  have hall : ∀ (c : List Nat) (l : Nat), 1 < l → to_uint8 (atoi c) = 0 →
      storeCalls (cmd_rx H s c l).2
        = (List.range' 1 MESH_HANDLE_COUNT).map
            (fun h => Effect.rbc_mesh_value_set h
              (s.m_data.set 6 ((s.m_data.getD 6 0 + 1) % 256)) H.MAX_VALUE_LENGTH) := by
    intro c l hl hz
    rw [cmd_rx_all H s c l hl hz]
    exact storeCalls_broadcast _ _ _ _
  have hone : ∀ (c : List Nat) (l : Nat), 1 < l → to_uint8 (atoi c) ≠ 0 →
      to_uint8 (atoi c) ≤ MESH_HANDLE_COUNT →
      storeCalls (cmd_rx H s c l).2
        = [Effect.rbc_mesh_value_set (to_uint8 (atoi c))
            (s.m_data.set 6 ((s.m_data.getD 6 0 + 1) % 256)) H.MAX_VALUE_LENGTH] := by
    intro c l hl hz hle
    rw [cmd_rx_one H s c l hl hle hz]
    simp [storeCalls, Effect.isStoreCall, incr_data6]
  have h261 : to_uint8 (atoi (bytes "261")) = 5 := by decide
  refine ⟨hrep, ?_, ?_, hall cmd len hlen, hone cmd len hlen, ?_,
    hall (bytes "256") 3 (by decide) (by decide), ?_, ?_⟩
  · intro hle
    have := react_data H s (Input.command cmd len)
    rw [(republishes_command H s cmd len).mpr ⟨hlen, hle⟩] at this
    exact this
  · intro hr
    rw [cmd_rx_reject H s cmd len hlen hr]
    exact ⟨rfl, by simp [storeCalls, print_usage, Effect.isStoreCall]⟩
  · intro cmd2 len2 hl2 heq
    have hv : to_uint8 (atoi cmd2) = to_uint8 (atoi cmd) := by
      unfold to_uint8; rw [heq]
    simp only [cmd_rx, Nat.not_le.mpr hl2, Nat.not_le.mpr hlen, if_false, hv]
  · rw [cmd_rx_handle H s (bytes "261") 3 (by decide)]; exact h261
  · have := hone (bytes "261") 3 (by decide) (by rw [h261]; decide) (by rw [h261]; decide)
    rw [h261] at this
    exact this

theorem cmd_decision_mod_256_witness :
    1 < 3
      ∧ atoi (bytes "277") = 277
      ∧ ¬ ∃ e ∈ (cmd_rx H0 s0 (bytes "277") 3).2, e.isSet = true :=
  ⟨by decide, by decide,
   fun h => absurd ((cmd_decision_mod_256 H0 s0 (bytes "277") 3 (by decide)).1.mp h)
     (by decide)⟩

/-! ## Handles passed to the value store -/

theorem handler_handleOk (H : Headers) (s : State) (evt : rbc_mesh_event_t)
    (hh : handleInRange evt.value_handle = true) :
    (rbc_mesh_event_handler H s evt).2.all Effect.handleOk = true := by
  by_cases hv : isValueEvent evt.event_type = true
  · by_cases hc : evt.value_handle = s.m_handle ∨ s.m_handle = 0
    · rw [handler_interested H s evt hv hc]
      by_cases h0 : s.m_handle = 0 <;> simp [h0, Effect.handleOk, hh]
    · rw [handler_uninterested H s evt hv hc]
      simp [Effect.handleOk, hh]
  · rw [handler_lifecycle H s evt (by simpa using hv)]
    rfl

theorem cmd_rx_handleOk (H : Headers) (s : State) (cmd : List Nat) (len : Nat) :
    (cmd_rx H s cmd len).2.all Effect.handleOk = true := by
  by_cases hl : len ≤ 1
  · rw [cmd_rx_short H s cmd len hl]; rfl
  · have hl2 : 1 < len := Nat.lt_of_not_le hl
    by_cases hr : MESH_HANDLE_COUNT < to_uint8 (atoi cmd)
    · rw [cmd_rx_reject H s cmd len hl2 hr]
      simp [print_usage, Effect.handleOk]
    · by_cases hz : to_uint8 (atoi cmd) = 0
      · rw [cmd_rx_all H s cmd len hl2 hz]
        rw [List.all_append, Bool.and_eq_true]
        refine ⟨?_, rfl⟩
        rw [List.all_eq_true]
        intro e he
        obtain ⟨i, hi, rfl⟩ := List.mem_map.mp he
        have hi2 := List.mem_range.mp hi
        show handleInRange (i + 1) = true
        rw [handleInRange_iff]
        omega
      · rw [cmd_rx_one H s cmd len hl2 (Nat.le_of_not_lt hr) hz]
        have : handleInRange (to_uint8 (atoi cmd)) = true := by
          rw [handleInRange_iff]; omega
        simp [Effect.handleOk, this]

/-- C17. From any start state, along any finite sequence of commands (any
bytes, any length) and of events whose handles lie in `1..MESH_HANDLE_COUNT`,
every `rbc_mesh_value_set` and every `rbc_mesh_value_disable` call of the trace
has its handle in `1..MESH_HANDLE_COUNT`; so neither the wildcard 0, nor the
sentinel `INVALID_HANDLE`, nor a command value above `MESH_HANDLE_COUNT` is
passed to the value store. -/
theorem store_handles_in_range (H : Headers) (s : State) (is : List Input)
    (hin : is.all Input.handleOk = true) :
    (run H s is).2.all Effect.handleOk = true
      ∧ (∀ h d l, Effect.rbc_mesh_value_set h d l ∈ (run H s is).2 →
          1 ≤ h ∧ h ≤ MESH_HANDLE_COUNT ∧ h ≠ 0 ∧ h ≠ INVALID_HANDLE)
      ∧ (∀ h, Effect.rbc_mesh_value_disable h ∈ (run H s is).2 →
          1 ≤ h ∧ h ≤ MESH_HANDLE_COUNT ∧ h ≠ 0 ∧ h ≠ INVALID_HANDLE) := by
  have main : ∀ (is : List Input) (s : State), is.all Input.handleOk = true →
      (run H s is).2.all Effect.handleOk = true := by
    intro is
    induction is with
    | nil => intro _ _; rfl
    | cons x xs ih =>
      intro s hall
      simp only [List.all_cons, Bool.and_eq_true] at hall
      rw [run_cons, List.all_append, Bool.and_eq_true]
      refine ⟨?_, ih (react H s x).1 hall.2⟩
      cases x with
      | event evt => exact handler_handleOk H s evt hall.1
      | command cmd len => exact cmd_rx_handleOk H s cmd len
  have hall := List.all_eq_true.mp (main is s hin)
  have h20 : MESH_HANDLE_COUNT = 20 := rfl
  have h255 : INVALID_HANDLE = 255 := rfl
  refine ⟨main is s hin, ?_, ?_⟩
  · intro h d l hm
    have := (handleInRange_iff h).mp (hall _ hm)
    omega
  · intro h hm
    have := (handleInRange_iff h).mp (hall _ hm)
    omega

theorem store_handles_in_range_witness :
    inputs1.all Input.handleOk = true
      ∧ (storeCalls (run H0 (State.init H0) inputs1).2).length = 25
      ∧ (run H0 (State.init H0) inputs1).2.all Effect.handleOk = true :=
  ⟨by decide, by decide,
   (store_handles_in_range H0 (State.init H0) inputs1 (by decide)).1⟩

end PingPong
